import Mathlib

/-! Shallow embedding of src/google_news_search.py: the filename sanitizer,
the result-archive merge of SearchProfile.save_as_json, the profile store
(load_profiles, save_profiles, edit_profile, the del branch of main) and the
SearchProfile serialization helpers (init, to_dict, from_dict). -/

/-- JSON values as produced by json.load and consumed by json.dump. -/
inductive Json where
  | null : Json
  | bool (b : Bool) : Json
  | num (n : Int) : Json
  | str (s : String) : Json
  | arr (items : List Json) : Json
  | obj (fields : List (String × Json)) : Json

/-- The members of the regex character class in clean_filename, line 39 of
src/google_news_search.py. In the pattern the backslash escapes the solidus,
so the class holds these eight characters and the backslash is not a member. -/
def unsafeFileChars : List Char := ['/', ':', '*', '?', '"', '<', '>', '|']

/-- clean_filename, lines 29-39: re.sub replaces each character of the class
by an underscore and copies every other character. -/
def clean_filename (filename : String) : String :=
  ⟨filename.data.map (fun c => if c ∈ unsafeFileChars then '_' else c)⟩

/-- A result record returned by the provider: a url plus an opaque payload. -/
structure ResultRecord where
  url : String
  payload : List (String × String)
deriving DecidableEq

/-- The combined_results computation of SearchProfile.save_as_json,
lines 174-180: the set of urls of the existing archive, then the existing
records followed by the new records whose url is not in that set. -/
def save_as_json (results existing : List ResultRecord) : List ResultRecord :=
  let existing_links := existing.map ResultRecord.url
  existing ++ results.filter (fun item => !(existing_links.contains item.url))

/-- A JSON file on disk: absent, present but unparseable, or present with a
parsed value. A value written by json.dump is re-read by json.load as an
equal value, so a written file is modelled by its parsed content. -/
abbrev FileState : Type := Option (Option Json)

/-- load_profiles, lines 64-72: the parsed value when the file exists and
parses; an empty mapping when the file is absent or json.load raises
JSONDecodeError. -/
def load_profiles : FileState → Json
  | some (some j) => j
  | some none => Json.obj []
  | none => Json.obj []

/-- save_profiles, lines 75-79: overwrites the file with the serialized
value, which re-loads as that value. -/
def save_profiles (j : Json) : FileState := some (some j)

/-- A profile record is a Python dict loaded from JSON, modelled as an
association list in insertion order. -/
abbrev ProfileData : Type := List (String × Json)

/-- The profile store mapping names to profile records. -/
abbrev ProfileStore : Type := List (String × ProfileData)

/-- Python lookup d[k]: the value at the first matching key. -/
def lookupKey (k : String) : List (String × α) → Option α
  | [] => none
  | (k0, v) :: rest => if k0 = k then some v else lookupKey k rest

/-- Python membership test k in d. -/
def containsKey (l : List (String × α)) (k : String) : Bool :=
  (lookupKey k l).isSome

/-- Python assignment d[k] = v when k is already a key: the stored value is
replaced in place, order preserved. -/
def replaceVal (l : List (String × α)) (k : String) (v : α) :
    List (String × α) :=
  l.map (fun p => if p.1 = k then (p.1, v) else p)

/-- Python assignment d[k] = v: replace when k exists, append otherwise. -/
def pyInsert (l : List (String × α)) (kv : String × α) : List (String × α) :=
  if containsKey l kv.1 then replaceVal l kv.1 kv.2 else l ++ [kv]

/-- Python dict(pairs): keys in order of first occurrence, last value wins. -/
def buildDict (pairs : List (String × α)) : List (String × α) :=
  pairs.foldl pyInsert []

/-- The last value bound to k in a pair list, if any. -/
def updVal (pairs : List (String × α)) (k : String) : Option α :=
  lookupKey k pairs.reverse

/-- One iteration of the update loop of edit_profile, lines 100-106: a key
present in the record is overwritten with the CLI-supplied string, an
unknown key is skipped. -/
def applyOne (pd : ProfileData) (k v : String) : ProfileData :=
  if containsKey pd k then replaceVal pd k (Json.str v) else pd

/-- The update loop of edit_profile over the items of the updates dict. -/
def applyUpdates (pd : ProfileData) : List (String × String) → ProfileData
  | [] => pd
  | (k, v) :: rest => applyUpdates (applyOne pd k v) rest

/-- edit_profile, lines 82-111, acting on the loaded store: returns the store
content after the call together with the number of save_profiles calls. An
unknown name, or an absent att list, performs no save. -/
def edit_profile (profiles : ProfileStore) (name : String)
    (att : Option (List (String × String))) : ProfileStore × Nat :=
  match lookupKey name profiles with
  | none => (profiles, 0)
  | some profile_data =>
    match att with
    | none => (profiles, 0)
    | some pairs =>
      let updates := buildDict pairs
      let pd := applyUpdates profile_data updates
      (pyInsert profiles (name, pd), 1)

/-- Python del d[k]: some updated dict, or none when the key is absent and a
KeyError is raised. -/
def dictDel (profiles : ProfileStore) (name : String) : Option ProfileStore :=
  if containsKey profiles name then
    some (profiles.filter (fun p => !(p.1 == name)))
  else none

/-- The del branch of main, lines 345-348: del profiles[name] followed by
save_profiles. First component: the outcome of the del statement (none is a
raised KeyError). Second component: the persisted file content after the
branch; on a KeyError the save line is never reached, so the file keeps its
prior content. -/
def del_command (persisted : ProfileStore) (name : String) :
    Option ProfileStore × ProfileStore :=
  match dictDel persisted name with
  | some ps => (some ps, ps)
  | none => (none, persisted)

/-- A calendar date as held by datetime. -/
structure PDate where
  year : Nat
  month : Nat
  day : Nat
deriving DecidableEq

def digitChar (n : Nat) : Char := Char.ofNat (48 + n)

def digitVal (c : Char) : Option Nat :=
  if 48 ≤ c.toNat ∧ c.toNat ≤ 57 then some (c.toNat - 48) else none

def parseNatAux : Nat → List Char → Option Nat
  | acc, [] => some acc
  | acc, c :: rest =>
    match digitVal c with
    | some v => parseNatAux (acc * 10 + v) rest
    | none => none

/-- A nonempty all-digit group read as a decimal number. -/
def parseNatDigits : List Char → Option Nat
  | [] => none
  | c :: rest => parseNatAux 0 (c :: rest)

/-- The strftime field %m and %d: two digits, zero padded. -/
def pad2 (n : Nat) : List Char := [digitChar (n / 10 % 10), digitChar (n % 10)]

/-- The strftime field %Y as a four-digit zero-padded year; datetime years
run 1..9999. -/
def pad4 (n : Nat) : List Char :=
  [digitChar (n / 1000 % 10), digitChar (n / 100 % 10),
   digitChar (n / 10 % 10), digitChar (n % 10)]

/-- strftime of a stored date with format %Y-%m-%d, lines 191-194. -/
def formatDate (d : PDate) : String :=
  ⟨pad4 d.year ++ '-' :: (pad2 d.month ++ '-' :: pad2 d.day)⟩

/-- The groups of a character list between occurrences of the dash. -/
def splitOnDash : List Char → List (List Char)
  | [] => [[]]
  | c :: rest =>
    if c = '-' then [] :: splitOnDash rest
    else
      match splitOnDash rest with
      | [] => [[c]]
      | g :: gs => (c :: g) :: gs

def isLeap (y : Nat) : Bool :=
  (y % 4 == 0 && y % 100 != 0) || y % 400 == 0

def daysInMonth (y m : Nat) : Nat :=
  if m = 2 then (if isLeap y then 29 else 28)
  else if m = 4 ∨ m = 6 ∨ m = 9 ∨ m = 11 then 30
  else 31

/-- datetime.strptime with format %Y-%m-%d, as called on lines 144 and 148:
three dash-separated digit groups of widths at most 4, 2 and 2, validated
against the ranges datetime accepts. -/
def parseDate (s : String) : Option PDate :=
  match splitOnDash s.data with
  | [ys, ms, ds] =>
    if ys.length ≤ 4 ∧ ms.length ≤ 2 ∧ ds.length ≤ 2 then
      match parseNatDigits ys, parseNatDigits ms, parseNatDigits ds with
      | some y, some m, some d =>
        if 1 ≤ y ∧ y ≤ 9999 ∧ 1 ≤ m ∧ m ≤ 12 ∧ 1 ≤ d ∧ d ≤ daysInMonth y m
        then some ⟨y, m, d⟩ else none
      | _, _, _ => none
    else none
  | _ => none

/-- The component ranges datetime accepts for a date. -/
abbrev ValidDate (d : PDate) : Prop :=
  1 ≤ d.year ∧ d.year ≤ 9999 ∧ 1 ≤ d.month ∧ d.month ≤ 12 ∧
    1 ≤ d.day ∧ d.day ≤ daysInMonth d.year d.month

/-- The truthiness guard around strptime in the constructor, lines 143-150:
a None or empty date string is stored as None; otherwise strptime runs. The
outer none is a raised ValueError. -/
def parseOptDate : Option String → Option (Option PDate)
  | none => some none
  | some s => if s.data.isEmpty then some none else (parseDate s).map some

structure SearchProfile where
  language : String
  country : String
  period : Option String
  start_date : Option PDate
  end_date : Option PDate
  max_results : Int
  exclude_websites : List String
  proxy : List (String × String)
  query : String
  results : List ResultRecord
deriving DecidableEq

/-- SearchProfile.__init__, lines 130-156; none is a raised ValueError from
strptime. Empty lists and None collapse to the defaults by truthiness. -/
def SearchProfile.init (language country : String) (period : Option String)
    (query : String) (start_date end_date : Option String) (max_results : Int)
    (exclude_websites : Option (List String))
    (proxy : Option (List (String × String))) : Option SearchProfile := do
  let sd ← parseOptDate start_date
  let ed ← parseOptDate end_date
  pure
    { language := language
      country := country
      period := period
      start_date := sd
      end_date := ed
      max_results := max_results
      exclude_websites :=
        match exclude_websites with
        | some l => if l.isEmpty then [] else l
        | none => []
      proxy :=
        match proxy with
        | some p => if p.isEmpty then [] else p
        | none => []
      query := query
      results := [] }

/-- The dict produced by SearchProfile.to_dict, lines 185-198: eight fixed
keys; dates are rendered with strftime or stored as null. -/
structure ProfileDict where
  language : String
  country : String
  period : Option String
  start_date : Option String
  end_date : Option String
  max_results : Int
  exclude_websites : List String
  query : String
deriving DecidableEq

def SearchProfile.to_dict (p : SearchProfile) : ProfileDict :=
  { language := p.language
    country := p.country
    period := p.period
    start_date := p.start_date.map formatDate
    end_date := p.end_date.map formatDate
    max_results := p.max_results
    exclude_websites := p.exclude_websites
    query := p.query }

/-- SearchProfile.from_dict, lines 200-203: SearchProfile(**data); proxy is
not among the stored keys, so it takes its default. -/
def SearchProfile.from_dict (d : ProfileDict) : Option SearchProfile :=
  SearchProfile.init d.language d.country d.period d.query d.start_date
    d.end_date d.max_results (some d.exclude_websites) none

/-- C1 (counterexample): the claim says the backslash is among the replaced
characters, but the regex class of clean_filename escapes the solidus with
that backslash and does not contain the backslash itself, so a backslash in
the input survives unchanged. -/
theorem clean_filename_keeps_backslash :
    clean_filename "\\" = "\\" ∧ clean_filename "\\" ≠ "_" := by
  constructor
  · rfl
  · decide

/-- C1 (amended): clean_filename replaces every occurrence of each of the
eight characters of the regex class by an underscore and leaves every other
character of the input, the backslash included, unchanged; the length is
preserved. -/
theorem clean_filename_replaces_unsafe (s : String) :
    (clean_filename s).data.length = s.data.length ∧
    ∀ i : Nat, (clean_filename s).data[i]? =
      (s.data[i]?).map (fun c => if c ∈ unsafeFileChars then '_' else c) := by
  refine ⟨by simp [clean_filename], fun i => ?_⟩
  simp [clean_filename]

/-- C2 (counterexample): merging a batch that repeats a url into an empty
archive writes two records with the same url, so the claimed invariant does
not hold for every batch. -/
theorem save_as_json_duplicate_url_counterexample :
    (save_as_json [⟨"x", []⟩, ⟨"x", [("k", "v")]⟩] []).map ResultRecord.url =
      ["x", "x"] ∧
    ¬ ((save_as_json [⟨"x", []⟩, ⟨"x", [("k", "v")]⟩] []).map
        ResultRecord.url).Nodup := by
  constructor
  · rfl
  · decide

/-- C2 (amended): whenever the existing archive has pairwise distinct urls
and the new batch also has pairwise distinct urls, the merge written by
save_as_json has pairwise distinct urls; only within-batch duplicates can
break the invariant. -/
theorem save_as_json_preserves_url_nodup
    (existing new_batch : List ResultRecord)
    (hex : (existing.map ResultRecord.url).Nodup)
    (hnew : (new_batch.map ResultRecord.url).Nodup) :
    ((save_as_json new_batch existing).map ResultRecord.url).Nodup := by
  unfold save_as_json
  rw [List.map_append]
  refine List.Nodup.append hex ?_ ?_
  · exact hnew.sublist (List.Sublist.map ResultRecord.url
      (List.filter_sublist new_batch))
  · intro a ha hb
    obtain ⟨r, hr, rfl⟩ := List.mem_map.mp hb
    obtain ⟨_, hp⟩ := List.mem_filter.mp hr
    have hp' : r.url ∉ existing.map ResultRecord.url := by simpa using hp
    exact hp' ha

/-- Witness for the amended C2 theorem at a concrete archive and batch. -/
theorem save_as_json_preserves_url_nodup_witness :
    (([⟨"a", []⟩] : List ResultRecord).map ResultRecord.url).Nodup ∧
    (([⟨"b", []⟩] : List ResultRecord).map ResultRecord.url).Nodup ∧
    ((save_as_json [⟨"b", []⟩] [⟨"a", []⟩]).map ResultRecord.url).Nodup :=
  ⟨by decide, by decide,
    save_as_json_preserves_url_nodup _ _ (by decide) (by decide)⟩

/-- C3: the archive written by save_as_json is the existing sequence followed
by, in input order, exactly the new records whose url is not among the urls
of the existing sequence; instantiated on the example of the claim. -/
theorem save_as_json_append_filter :
    (∀ existing new_batch : List ResultRecord,
      save_as_json new_batch existing =
        existing ++ new_batch.filter
          (fun r => decide (r.url ∉ existing.map ResultRecord.url))) ∧
    save_as_json [⟨"b", []⟩, ⟨"c", []⟩] [⟨"a", []⟩, ⟨"b", []⟩] =
      [⟨"a", []⟩, ⟨"b", []⟩, ⟨"c", []⟩] := by
  constructor
  · intro existing new_batch
    simp only [save_as_json]
    congr 1
    apply List.filter_congr
    intro r _
    show (!List.elem r.url (existing.map ResultRecord.url)) = _
    rw [List.elem_eq_mem, decide_not]
  · decide

/-- C4: with an empty existing archive and a batch repeating one url, both
copies are written and the resulting archive has length 2. -/
theorem save_as_json_keeps_batch_duplicates :
    save_as_json [⟨"x", []⟩, ⟨"x", []⟩] [] = [⟨"x", []⟩, ⟨"x", []⟩] ∧
    (save_as_json [⟨"x", []⟩, ⟨"x", []⟩] []).length = 2 := by
  constructor
  · decide
  · decide

/-- C5 (counterexample): a file whose content parses as a JSON array is not a
mapping from names to profile data, yet load_profiles returns the array
as-is rather than an empty mapping. -/
theorem load_profiles_nonmapping_counterexample :
    load_profiles (some (some (Json.arr [Json.num 1]))) =
      Json.arr [Json.num 1] ∧
    Json.arr [Json.num 1] ≠ Json.obj [] :=
  ⟨rfl, fun h => Json.noConfusion h⟩

/-- C5 (amended): load_profiles returns an empty mapping when the file is
absent or its content fails to parse as JSON, and it returns the parsed
value unchanged, mapping or not, when parsing succeeds; the function is
total, so no exception reaches the caller. -/
theorem load_profiles_spec :
    load_profiles none = Json.obj [] ∧
    load_profiles (some none) = Json.obj [] ∧
    ∀ j : Json, load_profiles (some (some j)) = j :=
  ⟨rfl, rfl, fun _ => rfl⟩

/-- C9: saving the mapping returned by a load and loading again yields the
value of the first load, for every state of the profile-store file. -/
theorem save_load_roundtrip (fs : FileState) :
    load_profiles (save_profiles (load_profiles fs)) = load_profiles fs := by
  match fs with
  | none => rfl
  | some none => rfl
  | some (some _) => rfl

theorem lookupKey_cons (k a : String) (b : α) (rest : List (String × α)) :
    lookupKey k ((a, b) :: rest) = if a = k then some b else lookupKey k rest :=
  rfl

theorem replaceVal_cons (a : String) (b : α) (k0 : String) (v : α)
    (rest : List (String × α)) :
    replaceVal ((a, b) :: rest) k0 v =
      (if a = k0 then (a, v) else (a, b)) :: replaceVal rest k0 v :=
  rfl

theorem lookupKey_replaceVal (k k0 : String) (v : α) (l : List (String × α)) :
    lookupKey k (replaceVal l k0 v) =
      if k = k0 then (lookupKey k l).map (fun _ => v) else lookupKey k l := by
  induction l with
  | nil => simp [replaceVal, lookupKey]
  | cons p rest ih =>
    rcases p with ⟨a, b⟩
    rw [replaceVal_cons]
    by_cases h1 : a = k0
    · rw [if_pos h1, lookupKey_cons]
      by_cases h2 : a = k
      · rw [if_pos h2, lookupKey_cons, if_pos h2]
        have h3 : k = k0 := by
          rw [← h2, h1]
        rw [if_pos h3]
        simp
      · rw [if_neg h2, ih]
        by_cases h3 : k = k0
        · exact absurd (h1.trans h3.symm) h2
        · rw [if_neg h3, if_neg h3, lookupKey_cons, if_neg h2]
    · rw [if_neg h1, lookupKey_cons]
      by_cases h2 : a = k
      · rw [if_pos h2]
        by_cases h3 : k = k0
        · exact absurd (h2.trans h3) h1
        · rw [if_neg h3, lookupKey_cons, if_pos h2]
      · rw [if_neg h2, ih]
        by_cases h3 : k = k0
        · rw [if_pos h3, if_pos h3, lookupKey_cons, if_neg h2]
        · rw [if_neg h3, if_neg h3, lookupKey_cons, if_neg h2]

theorem lookupKey_append (k : String) (l1 l2 : List (String × α)) :
    lookupKey k (l1 ++ l2) =
      match lookupKey k l1 with
      | some v => some v
      | none => lookupKey k l2 := by
  induction l1 with
  | nil => simp [lookupKey]
  | cons p rest ih =>
    rcases p with ⟨a, b⟩
    by_cases h : a = k
    · subst h
      simp [lookupKey]
    · simp [lookupKey, h, ih]

theorem lookupKey_applyOne (pd : ProfileData) (k0 v0 : String) (k : String) :
    lookupKey k (applyOne pd k0 v0) =
      (lookupKey k pd).map (fun old => if k = k0 then Json.str v0 else old) := by
  unfold applyOne containsKey
  by_cases hc : (lookupKey k0 pd).isSome = true
  · rw [if_pos hc, lookupKey_replaceVal]
    by_cases h3 : k = k0
    · subst h3
      cases hl : lookupKey k pd <;> simp [hl]
    · cases hl : lookupKey k pd <;> simp [hl, h3]
  · rw [if_neg hc]
    by_cases h3 : k = k0
    · subst h3
      have hn : lookupKey k pd = none := by
        cases h : lookupKey k pd
        · rfl
        · rw [h] at hc
          simp at hc
      simp [hn]
    · cases hl : lookupKey k pd <;> simp [hl, h3]

theorem updVal_nil (k : String) : updVal ([] : List (String × α)) k = none := rfl

theorem updVal_cons (k0 : String) (v0 : α) (rest : List (String × α))
    (k : String) :
    updVal ((k0, v0) :: rest) k =
      match updVal rest k with
      | some w => some w
      | none => if k0 = k then some v0 else none := by
  unfold updVal
  rw [List.reverse_cons, lookupKey_append]
  cases lookupKey k rest.reverse <;> simp [lookupKey]

theorem lookupKey_applyUpdates (us : List (String × String)) (pd : ProfileData)
    (k : String) :
    lookupKey k (applyUpdates pd us) =
      (lookupKey k pd).map (fun old => (updVal us k).elim old Json.str) := by
  induction us generalizing pd with
  | nil =>
    cases hl : lookupKey k pd <;> simp [applyUpdates, updVal_nil, hl]
  | cons p rest ih =>
    rcases p with ⟨k0, v0⟩
    rw [applyUpdates, ih, lookupKey_applyOne]
    simp only [updVal_cons]
    cases hl : lookupKey k pd
    · simp
    · cases hw : updVal rest k
      · by_cases h3 : k = k0
        · subst h3
          simp
        · simp [h3, Ne.symm h3]
      · simp

theorem lookupKey_pyInsert (l : List (String × α)) (k0 : String) (v0 : α)
    (k : String) :
    lookupKey k (pyInsert l (k0, v0)) =
      if k0 = k then some v0 else lookupKey k l := by
  unfold pyInsert containsKey
  by_cases hc : (lookupKey k0 l).isSome = true
  · rw [if_pos hc, lookupKey_replaceVal]
    by_cases h3 : k = k0
    · subst h3
      cases hl : lookupKey k l
      · rw [hl] at hc
        simp at hc
      · simp [hl]
    · simp [h3, Ne.symm h3]
  · rw [if_neg hc, lookupKey_append]
    by_cases h3 : k0 = k
    · subst h3
      have hn : lookupKey k0 l = none := by
        cases h : lookupKey k0 l
        · rfl
        · rw [h] at hc
          simp at hc
      simp [hn, lookupKey]
    · cases hl : lookupKey k l <;> simp [hl, h3, lookupKey]

theorem lookupKey_buildDict (pairs : List (String × α)) (k : String) :
    lookupKey k (buildDict pairs) = updVal pairs k := by
  have H : ∀ (us : List (String × α)) (d : List (String × α)),
      lookupKey k (us.foldl pyInsert d) =
        match updVal us k with
        | some w => some w
        | none => lookupKey k d := by
    intro us
    induction us with
    | nil =>
      intro d
      simp [updVal_nil]
    | cons p rest ih =>
      intro d
      rcases p with ⟨k0, v0⟩
      rw [List.foldl_cons, ih, lookupKey_pyInsert, updVal_cons]
      cases updVal rest k <;> by_cases h3 : k0 = k <;> simp [h3]
  show lookupKey k (pairs.foldl pyInsert []) = _
  rw [H]
  cases updVal pairs k <;> simp [lookupKey]

theorem lookupKey_eq_none_iff (k : String) (l : List (String × α)) :
    lookupKey k l = none ↔ ∀ p ∈ l, p.1 ≠ k := by
  induction l with
  | nil => simp [lookupKey]
  | cons p rest ih =>
    rcases p with ⟨a, b⟩
    by_cases h : a = k
    · subst h
      simp [lookupKey]
    · simp [lookupKey, h, ih]

theorem updVal_pyInsert (d : List (String × α)) (k0 : String) (v0 : α)
    (k : String) :
    updVal (pyInsert d (k0, v0)) k =
      if k0 = k then some v0 else updVal d k := by
  unfold pyInsert containsKey
  by_cases hc : (lookupKey k0 d).isSome = true
  · rw [if_pos hc]
    have hrev : (replaceVal d k0 v0).reverse = replaceVal d.reverse k0 v0 := by
      unfold replaceVal
      exact (List.map_reverse _ d).symm
    unfold updVal
    rw [hrev, lookupKey_replaceVal]
    by_cases h3 : k = k0
    · subst h3
      have hne : lookupKey k d.reverse ≠ none := by
        intro hnone
        have hall := (lookupKey_eq_none_iff k d.reverse).mp hnone
        have hzero : lookupKey k d = none :=
          (lookupKey_eq_none_iff k d).mpr
            (fun p hp => hall p (List.mem_reverse.mpr hp))
        rw [hzero] at hc
        simp at hc
      cases hr : lookupKey k d.reverse
      · exact absurd hr hne
      · simp [hr]
    · simp [h3, Ne.symm h3]
  · rw [if_neg hc]
    unfold updVal
    rw [List.reverse_append]
    simp [lookupKey]

theorem updVal_buildDict (pairs : List (String × α)) (k : String) :
    updVal (buildDict pairs) k = updVal pairs k := by
  have H : ∀ (us d : List (String × α)),
      updVal (us.foldl pyInsert d) k =
        match updVal us k with
        | some w => some w
        | none => updVal d k := by
    intro us
    induction us with
    | nil =>
      intro d
      simp [updVal_nil]
    | cons p rest ih =>
      intro d
      rcases p with ⟨k0, v0⟩
      rw [List.foldl_cons, ih, updVal_pyInsert, updVal_cons]
      cases updVal rest k <;> by_cases h3 : k0 = k <;> simp [h3]
  show updVal (pairs.foldl pyInsert []) k = _
  rw [H]
  cases updVal pairs k <;> simp [updVal_nil]

/-- C6: invoking edit with a profile name absent from the store performs no
mutation: the function returns the store unchanged and runs zero saves, so
the persisted mapping is identical before and after the call. -/
theorem edit_profile_unknown_name (profiles : ProfileStore) (name : String)
    (att : Option (List (String × String)))
    (h : lookupKey name profiles = none) :
    edit_profile profiles name att = (profiles, 0) := by
  unfold edit_profile
  rw [h]

/-- Witness for the C6 theorem at a concrete store and name. -/
theorem edit_profile_unknown_name_witness :
    lookupKey "p" ([] : ProfileStore) = none ∧
    edit_profile [] "p" (some [("language", "ko")]) = ([], 0) :=
  ⟨rfl, edit_profile_unknown_name [] "p" (some [("language", "ko")]) rfl⟩

/-- C7: for an existing profile, edit saves exactly once, leaves every other
profile unchanged, and stores a record in which each key present in the
record takes the value the updates dict assigns it when there is one and its
old value otherwise, while keys absent from the record stay absent even when
the updates dict mentions them. -/
theorem edit_profile_known_name (profiles : ProfileStore) (name : String)
    (pairs : List (String × String)) (pd : ProfileData)
    (h : lookupKey name profiles = some pd) :
    (edit_profile profiles name (some pairs)).2 = 1 ∧
    (∀ n : String, n ≠ name →
      lookupKey n (edit_profile profiles name (some pairs)).1 =
        lookupKey n profiles) ∧
    lookupKey name (edit_profile profiles name (some pairs)).1 =
      some (applyUpdates pd (buildDict pairs)) ∧
    ∀ k : String,
      lookupKey k (applyUpdates pd (buildDict pairs)) =
        (lookupKey k pd).map (fun old =>
          match lookupKey k (buildDict pairs) with
          | some v => Json.str v
          | none => old) := by
  refine ⟨?_, ?_, ?_, ?_⟩
  · simp [edit_profile, h]
  · intro n hn
    simp only [edit_profile, h]
    rw [lookupKey_pyInsert, if_neg (Ne.symm hn)]
  · simp only [edit_profile, h]
    rw [lookupKey_pyInsert, if_pos rfl]
  · intro k
    simp only [lookupKey_applyUpdates, lookupKey_buildDict, updVal_buildDict]
    cases lookupKey k pd <;> cases updVal pairs k <;> simp

/-- Witness for the C7 theorem: a store with one profile, one recognized and
one unknown update key. -/
theorem edit_profile_known_name_witness :
    lookupKey "p"
      ([("p", [("max_results", Json.num 100), ("language", Json.str "en")])] :
        ProfileStore) =
      some [("max_results", Json.num 100), ("language", Json.str "en")] ∧
    ((edit_profile
        [("p", [("max_results", Json.num 100), ("language", Json.str "en")])]
        "p" (some [("max_results", "50"), ("bogus_key", "1")])).2 = 1 ∧
      (∀ n : String, n ≠ "p" →
        lookupKey n
            (edit_profile
              [("p",
                [("max_results", Json.num 100), ("language", Json.str "en")])]
              "p" (some [("max_results", "50"), ("bogus_key", "1")])).1 =
          lookupKey n
            [("p",
              [("max_results", Json.num 100), ("language", Json.str "en")])]) ∧
      lookupKey "p"
          (edit_profile
            [("p",
              [("max_results", Json.num 100), ("language", Json.str "en")])]
            "p" (some [("max_results", "50"), ("bogus_key", "1")])).1 =
        some (applyUpdates
          [("max_results", Json.num 100), ("language", Json.str "en")]
          (buildDict [("max_results", "50"), ("bogus_key", "1")])) ∧
      ∀ k : String,
        lookupKey k
            (applyUpdates
              [("max_results", Json.num 100), ("language", Json.str "en")]
              (buildDict [("max_results", "50"), ("bogus_key", "1")])) =
          (lookupKey k
              [("max_results", Json.num 100),
                ("language", Json.str "en")]).map
            (fun old =>
              match
                lookupKey k
                  (buildDict [("max_results", "50"), ("bogus_key", "1")]) with
              | some v => Json.str v
              | none => old)) :=
  ⟨rfl,
    edit_profile_known_name
      [("p", [("max_results", Json.num 100), ("language", Json.str "en")])]
      "p" [("max_results", "50"), ("bogus_key", "1")]
      [("max_results", Json.num 100), ("language", Json.str "en")] rfl⟩

/-- C8: deleting a profile name absent from the store hits an unguarded
del statement: the del raises a KeyError (outcome none) and, the fault
occurring before the save line, the persisted store content is unchanged. -/
theorem del_command_missing_name (persisted : ProfileStore) (name : String)
    (h : lookupKey name persisted = none) :
    (del_command persisted name).1 = none ∧
    (del_command persisted name).2 = persisted := by
  unfold del_command dictDel containsKey
  rw [h]
  simp

/-- Witness for the C8 theorem at a concrete store and missing name. -/
theorem del_command_missing_name_witness :
    lookupKey "ghost" ([("p", [])] : ProfileStore) = none ∧
    (del_command [("p", [])] "ghost").1 = none ∧
    (del_command [("p", [])] "ghost").2 = [("p", [])] :=
  ⟨rfl,
    (del_command_missing_name [("p", [])] "ghost" rfl).1,
    (del_command_missing_name [("p", [])] "ghost" rfl).2⟩

theorem digitVal_digitChar (v : Nat) (h : v < 10) :
    digitVal (digitChar v) = some v := by
  interval_cases v <;> decide

theorem digitChar_ne_dash (v : Nat) (h : v < 10) : digitChar v ≠ '-' := by
  interval_cases v <;> decide

theorem dash_not_mem_pad4 (n : Nat) : '-' ∉ pad4 n := by
  intro hmem
  simp only [pad4, List.mem_cons, List.not_mem_nil, or_false] at hmem
  rcases hmem with h | h | h | h <;>
    exact digitChar_ne_dash _ (Nat.mod_lt _ (by norm_num)) h.symm

theorem dash_not_mem_pad2 (n : Nat) : '-' ∉ pad2 n := by
  intro hmem
  simp only [pad2, List.mem_cons, List.not_mem_nil, or_false] at hmem
  rcases hmem with h | h <;>
    exact digitChar_ne_dash _ (Nat.mod_lt _ (by norm_num)) h.symm

theorem splitOnDash_no_dash (xs : List Char) (h : '-' ∉ xs) :
    splitOnDash xs = [xs] := by
  induction xs with
  | nil => rfl
  | cons c rest ih =>
    have hc : ¬ c = '-' := by
      intro h0
      exact h (by rw [← h0]; exact List.mem_cons_self c rest)
    have hrest : '-' ∉ rest := fun hr => h (List.mem_cons_of_mem c hr)
    rw [splitOnDash, if_neg hc, ih hrest]

theorem splitOnDash_append (xs rest : List Char) (h : '-' ∉ xs) :
    splitOnDash (xs ++ '-' :: rest) = xs :: splitOnDash rest := by
  induction xs with
  | nil => simp [splitOnDash]
  | cons c xs0 ih =>
    have hc : ¬ c = '-' := by
      intro h0
      exact h (by rw [← h0]; exact List.mem_cons_self c xs0)
    have hxs0 : '-' ∉ xs0 := fun hr => h (List.mem_cons_of_mem c hr)
    rw [List.cons_append, splitOnDash, if_neg hc, ih hxs0]

theorem parseNatDigits_pad4 (y : Nat) (hy : y ≤ 9999) :
    parseNatDigits (pad4 y) = some y := by
  have h1 : digitVal (digitChar (y / 1000 % 10)) = some (y / 1000 % 10) :=
    digitVal_digitChar _ (Nat.mod_lt _ (by norm_num))
  have h2 : digitVal (digitChar (y / 100 % 10)) = some (y / 100 % 10) :=
    digitVal_digitChar _ (Nat.mod_lt _ (by norm_num))
  have h3 : digitVal (digitChar (y / 10 % 10)) = some (y / 10 % 10) :=
    digitVal_digitChar _ (Nat.mod_lt _ (by norm_num))
  have h4 : digitVal (digitChar (y % 10)) = some (y % 10) :=
    digitVal_digitChar _ (Nat.mod_lt _ (by norm_num))
  simp only [pad4, parseNatDigits, parseNatAux, h1, h2, h3, h4]
  congr 1
  omega

theorem parseNatDigits_pad2 (m : Nat) (hm : m ≤ 99) :
    parseNatDigits (pad2 m) = some m := by
  have h1 : digitVal (digitChar (m / 10 % 10)) = some (m / 10 % 10) :=
    digitVal_digitChar _ (Nat.mod_lt _ (by norm_num))
  have h2 : digitVal (digitChar (m % 10)) = some (m % 10) :=
    digitVal_digitChar _ (Nat.mod_lt _ (by norm_num))
  simp only [pad2, parseNatDigits, parseNatAux, h1, h2]
  congr 1
  omega

theorem daysInMonth_le (y m : Nat) : daysInMonth y m ≤ 31 := by
  unfold daysInMonth
  split_ifs <;> omega

theorem parseDate_formatDate (d : PDate) (h : ValidDate d) :
    parseDate (formatDate d) = some d := by
  rcases d with ⟨y, m, dd⟩
  obtain ⟨h1, h2, h3, h4, h5, h6⟩ := h
  replace h1 : 1 ≤ y := h1
  replace h2 : y ≤ 9999 := h2
  replace h3 : 1 ≤ m := h3
  replace h4 : m ≤ 12 := h4
  replace h5 : 1 ≤ dd := h5
  replace h6 : dd ≤ daysInMonth y m := h6
  have hday : dd ≤ 31 := le_trans h6 (daysInMonth_le y m)
  have e1 := splitOnDash_append (pad4 y) (pad2 m ++ '-' :: pad2 dd)
    (dash_not_mem_pad4 y)
  have e2 := splitOnDash_append (pad2 m) (pad2 dd) (dash_not_mem_pad2 m)
  have e3 := splitOnDash_no_dash (pad2 dd) (dash_not_mem_pad2 dd)
  have p1 := parseNatDigits_pad4 y (by omega)
  have p2 := parseNatDigits_pad2 m (by omega)
  have p3 := parseNatDigits_pad2 dd (by omega)
  have hlen : (pad4 y).length ≤ 4 ∧ (pad2 m).length ≤ 2 ∧
      (pad2 dd).length ≤ 2 := by
    refine ⟨?_, ?_, ?_⟩ <;> simp [pad4, pad2]
  simp only [parseDate, formatDate, e1, e2, e3, p1, p2, p3]
  rw [if_pos hlen, if_pos ⟨h1, h2, h3, h4, h5, h6⟩]

/-- C10: for a profile whose stored dates are dates datetime accepts (the
case when they were given in YYYY-MM-DD form) or are absent, from_dict of
to_dict succeeds and the reconstructed profile has the same to_dict, with
all eight persisted fields preserved and the transient results list reset
to empty. -/
theorem from_dict_to_dict_roundtrip (p : SearchProfile)
    (hs : ∀ d, p.start_date = some d → ValidDate d)
    (he : ∀ d, p.end_date = some d → ValidDate d) :
    ∃ q : SearchProfile,
      SearchProfile.from_dict p.to_dict = some q ∧
      q.to_dict = p.to_dict ∧ q.results = [] := by
  have hsp : parseOptDate (Option.map formatDate p.start_date) =
      some p.start_date := by
    cases hd : p.start_date with
    | none => simp [parseOptDate]
    | some d =>
      have hv := hs d hd
      have hne : (formatDate d).data.isEmpty = false := by
        simp [formatDate, pad4]
      simp [parseOptDate, hne, parseDate_formatDate d hv]
  have hep : parseOptDate (Option.map formatDate p.end_date) =
      some p.end_date := by
    cases hd : p.end_date with
    | none => simp [parseOptDate]
    | some d =>
      have hv := he d hd
      have hne : (formatDate d).data.isEmpty = false := by
        simp [formatDate, pad4]
      simp [parseOptDate, hne, parseDate_formatDate d hv]
  have hexcl : (if p.exclude_websites.isEmpty then ([] : List String)
      else p.exclude_websites) = p.exclude_websites := by
    cases p.exclude_websites <;> simp
  refine ⟨{ language := p.language, country := p.country, period := p.period,
            start_date := p.start_date, end_date := p.end_date,
            max_results := p.max_results,
            exclude_websites := p.exclude_websites, proxy := [],
            query := p.query, results := [] }, ?_, rfl, rfl⟩
  simp [SearchProfile.from_dict, SearchProfile.init, SearchProfile.to_dict,
    hsp, hep, hexcl]

/-- Witness for the C10 theorem at a concrete profile with one stored date
and one absent date. -/
theorem from_dict_to_dict_roundtrip_witness :
    (∀ d, (some ⟨2024, 1, 5⟩ : Option PDate) = some d → ValidDate d) ∧
    (∀ d, (none : Option PDate) = some d → ValidDate d) ∧
    ∃ q : SearchProfile,
      SearchProfile.from_dict (SearchProfile.to_dict
        { language := "en", country := "US", period := some "7d",
          start_date := some ⟨2024, 1, 5⟩, end_date := none,
          max_results := 100, exclude_websites := [], proxy := [],
          query := "ai", results := [] }) = some q ∧
      q.to_dict = SearchProfile.to_dict
        { language := "en", country := "US", period := some "7d",
          start_date := some ⟨2024, 1, 5⟩, end_date := none,
          max_results := 100, exclude_websites := [], proxy := [],
          query := "ai", results := [] } ∧
      q.results = [] :=
  ⟨fun d hd => by cases hd; decide,
   fun d hd => Option.noConfusion hd,
   from_dict_to_dict_roundtrip
     { language := "en", country := "US", period := some "7d",
       start_date := some ⟨2024, 1, 5⟩, end_date := none,
       max_results := 100, exclude_websites := [], proxy := [],
       query := "ai", results := [] }
     (fun d hd => by cases hd; decide)
     (fun d hd => Option.noConfusion hd)⟩
